import Mathlib

/-!
Verification development for the grading harness of checker.py.

The harness dynamically loads one student submission per file, registers the
loaded namespace in the shared module registry under the alias exam, rewrites
the fixed unittest suite so that symbols missing from the submission become
call-time stubs, runs the suite through a collector that records one outcome
per test, and assembles a per-student map of results.

The embedding below is shallow: Python namespaces are association lists from
symbol names to opaque values of a type parameter, the shared registry
sys.modules is an association list from module names to namespaces that is
threaded explicitly, and executing arbitrary Python source is abstracted as a
value of type Except String; everything the checker itself does with those
outcomes (control flow, registry writes, record construction, the textual
rewrite of the suite source, name derivation, batch assembly) is modelled
directly from the source of checker.py.
-/

namespace Checker

/-- Single-quote character, used when building pieces of Python source text. -/
def sq : String := String.singleton (Char.ofNat 39)

/-- One outcome dictionary, exactly the shape appended by JSONTestResult and
by the synthetic failure returns of run_tests_for_student: keys test,
description, result, reason. -/
structure OutcomeRecord where
  test : String
  description : String
  result : String
  reason : String
deriving Repr, DecidableEq

/-- The TestResult enum of checker.py. -/
inductive TestResult where
  | PASSED
  | FAILED
  | ERROR
deriving Repr, DecidableEq

/-- The value attribute of each TestResult member. -/
def TestResult.value : TestResult → String
  | .PASSED => "PASSED"
  | .FAILED => "FAILED"
  | .ERROR => "ERROR"

/-- Model of the unittest TestResult exception formatting used for the reason
field: a traceback whose final line is the exception type name, a colon and
the message. The intermediate frame lines are elided; the claims only speak
about the message text the reason contains. -/
def excInfoToString (ty msg : String) : String :=
  "Traceback (most recent call last):\n" ++ ty ++ ": " ++ msg ++ "\n"

/-- State of the JSONTestResult collector: the results list it accumulates.
The base-class bookkeeping of unittest.TestResult is not modelled; the list
is the authoritative output consumed downstream. -/
structure JSONTestResult where
  results : List OutcomeRecord
deriving Repr, DecidableEq

/-- Model of JSONTestResult.addSuccess: appends one PASSED record built from
the test method name and the short description (empty string when absent). -/
def JSONTestResult.addSuccess (r : JSONTestResult) (name : String)
    (desc : Option String) : JSONTestResult :=
  { results := r.results ++
      [{ test := name, description := desc.getD "",
         result := TestResult.PASSED.value,
         reason := "Test passed successfully" }] }

/-- Model of JSONTestResult.addFailure: appends one FAILED record whose reason
is the formatted exception text for the test. -/
def JSONTestResult.addFailure (r : JSONTestResult) (name : String)
    (desc : Option String) (trace : String) : JSONTestResult :=
  { results := r.results ++
      [{ test := name, description := desc.getD "",
         result := TestResult.FAILED.value,
         reason := trace }] }

/-- Model of JSONTestResult.addError: appends one ERROR record whose reason
is the formatted exception text for the test. -/
def JSONTestResult.addError (r : JSONTestResult) (name : String)
    (desc : Option String) (trace : String) : JSONTestResult :=
  { results := r.results ++
      [{ test := name, description := desc.getD "",
         result := TestResult.ERROR.value,
         reason := trace }] }

/-- One notification delivered to the collector by the test runner: the
success, failure or error callback for one executed test, carrying the test
method name, the optional short description and, for the failing callbacks,
the formatted exception text. -/
inductive TestEvent where
  | success (name : String) (desc : Option String)
  | failure (name : String) (desc : Option String) (trace : String)
  | error (name : String) (desc : Option String) (trace : String)
deriving Repr, DecidableEq

/-- Dispatch of one runner notification to the corresponding collector
callback, as unittest does during a run. -/
def applyEvent (r : JSONTestResult) : TestEvent → JSONTestResult
  | .success name desc => r.addSuccess name desc
  | .failure name desc trace => r.addFailure name desc trace
  | .error name desc trace => r.addError name desc trace

/-- The record that one notification contributes. -/
def recordOf : TestEvent → OutcomeRecord
  | .success name desc =>
      { test := name, description := desc.getD "",
        result := TestResult.PASSED.value, reason := "Test passed successfully" }
  | .failure name desc trace =>
      { test := name, description := desc.getD "",
        result := TestResult.FAILED.value, reason := trace }
  | .error name desc trace =>
      { test := name, description := desc.getD "",
        result := TestResult.ERROR.value, reason := trace }

/-- Running the collector over a sequence of notifications, starting empty. -/
def collect (evs : List TestEvent) : JSONTestResult :=
  evs.foldl applyEvent { results := [] }

/-! ### String utilities

Character-level models of the Python string operations the checker uses.
They work on the character lists underlying Lean strings so that every
definition evaluates inside the kernel. -/

/-- Whitespace characters that the regex class for spaces can match inside a
single line of source text (the newline case cannot occur within a line). -/
def isPySpaceChar (c : Char) : Bool :=
  c = ' ' || c = '\t' || c = '\r' || c = '\x0b' || c = '\x0c'

/-- Model of str.strip on a list of characters: drop whitespace from both
ends. -/
def stripChars (cs : List Char) : List Char :=
  ((cs.dropWhile isPySpaceChar).reverse.dropWhile isPySpaceChar).reverse

/-- Model of str.strip. -/
def pyStrip (s : String) : String :=
  String.mk (stripChars s.data)

/-- Model of str.split applied with a comma separator: splitting an empty
string yields one empty piece, matching Python. -/
def splitCommaAux : List Char → List Char → List (List Char)
  | [], acc => [acc.reverse]
  | c :: rest, acc =>
      if c = ',' then acc.reverse :: splitCommaAux rest []
      else splitCommaAux rest (c :: acc)

/-- Model of the split on commas used for the imported-symbol list. -/
def splitComma (s : String) : List String :=
  (splitCommaAux s.data []).map String.mk

/-- Model of str.endswith: a case-sensitive suffix test. -/
def pyEndsWith (s suf : String) : Bool :=
  List.isSuffixOf suf.data s.data

/-- Index of the last dot of a filename, if any. -/
def lastDotIdx (cs : List Char) : Option Nat :=
  ((List.range cs.length).filter (fun i => cs.getD i ' ' = '.')).getLast?

/-- Model of os.path.splitext restricted to its first component, for a bare
filename with no path separators: the name up to its last dot, except that a
dot belonging to the leading-dot prefix of the name starts no extension, so
names such as .py are returned whole. -/
def pySplitextStem (s : String) : String :=
  match lastDotIdx s.data with
  | none => s
  | some i =>
      if (List.range i).all (fun j => s.data.getD j ' ' = '.') then s
      else String.mk (s.data.take i)

/-! ### The symbol-tolerant rewrite of load_test_module_from_path

The test source is modelled as its list of lines (the pieces between
newlines). The dependency pattern anchors at line start and line end under
the multiline flag, so a match is a whole line of the form
from <spaces> exam <spaces> import <spaces> <rest>. -/

/-- Consume a literal token at the head of the character list. -/
def takeTokenChars (tok cs : List Char) : Option (List Char) :=
  if cs.take tok.length = tok then some (cs.drop tok.length) else none

/-- Consume one or more whitespace characters greedily. -/
def takeSpaces1 (cs : List Char) : Option (List Char) :=
  match cs with
  | [] => none
  | c :: rest =>
      if isPySpaceChar c then some (rest.dropWhile isPySpaceChar) else none

/-- The captured group after the import keyword: one or more whitespace
characters followed by a nonempty remainder. Greedy whitespace backtracks by
one character when the remainder would otherwise be empty, matching the
regex engine, so a run of two or more trailing spaces still yields a match
whose group is the last space. -/
def depGroupOf (rest : List Char) : Option (List Char) :=
  let k := (rest.takeWhile isPySpaceChar).length
  if k = 0 then none
  else if k < rest.length then some (rest.drop k)
  else if 2 ≤ rest.length then some [rest.getLast?.getD ' ']
  else none

/-- Whether one line matches the dependency pattern of
load_test_module_from_path, returning the captured symbol-list text. -/
def depLineParse (line : String) : Option String :=
  match takeTokenChars "from".data line.data with
  | none => none
  | some r1 =>
      match takeSpaces1 r1 with
      | none => none
      | some r2 =>
          match takeTokenChars "exam".data r2 with
          | none => none
          | some r3 =>
              match takeSpaces1 r3 with
              | none => none
              | some r4 =>
                  match takeTokenChars "import".data r4 with
                  | none => none
                  | some r5 => (depGroupOf r5).map String.mk

/-- The comma-split, stripped symbol list extracted from the captured
group. -/
def funcListOf (group : String) : List String :=
  (splitComma group).map pyStrip

/-- The five generated lines guarding the import of one symbol: a try block
importing it from exam and an except block defining a fallback that raises an
ImportError naming the symbol. -/
def stubBlockLines (fn : String) : List String :=
  ["try:",
   "    from exam import " ++ fn,
   "except ImportError as e:",
   "    def " ++ fn ++ "(*args, **kwargs):",
   "        raise ImportError(" ++ sq ++ "Function \"" ++ fn ++
     "\" not found. " ++ sq ++ " + str(e))"]

/-- The whole generated replacement block for a symbol list. -/
def replacementBlock (fns : List String) : List String :=
  fns.flatMap stubBlockLines

/-- Model of the rewrite in load_test_module_from_path: the first line
matching the dependency pattern, and only that line, is replaced by the
generated block. The replacement text ends with a newline while the matched
text consumed none, so one empty line follows the block. -/
def rewriteTestSource (lines : List String) : List String :=
  match lines.findIdx? (fun l => (depLineParse l).isSome) with
  | none => lines
  | some i =>
      let g := (depLineParse (lines.getD i "")).getD ""
      lines.take i ++ replacementBlock (funcListOf g) ++ [""] ++ lines.drop (i + 1)

/-! ### Namespaces, the module registry, and the loaders

A loaded module is its namespace: an association list from symbol names to
opaque values of a type parameter. The registry sys.modules maps module names
to namespaces and is threaded explicitly through every operation that Python
performs against the process-wide registry. Executing arbitrary Python source
is abstracted as an Except value: either the resulting namespace or the text
of the exception the execution raised. -/

/-- A module namespace. -/
abbrev Ns (α : Type) := List (String × α)

/-- The shared module registry sys.modules. -/
abbrev SysModules (α : Type) := List (String × Ns α)

/-- Assignment into a Python dict: an existing key keeps its position and gets
the new value, a new key is appended. -/
def dictInsert {β : Type} (d : List (String × β)) (k : String) (v : β) :
    List (String × β) :=
  if (d.map Prod.fst).contains k then
    d.map (fun p => if p.1 = k then (k, v) else p)
  else d ++ [(k, v)]

/-- Model of load_module_from_path: builds and executes the module from its
file, returning the namespace or propagating the exception. It performs no
registry write, which the returned registry records. -/
def load_module_from_path {α : Type} (execResult : Except String (Ns α))
    (sysMods : SysModules α) : Except String (Ns α) × SysModules α :=
  (execResult, sysMods)

/-- How one symbol name resolves inside the executed test module after the
rewrite: either the value imported from exam, or the fallback callable that
raises an ImportError carrying the recorded message when invoked. -/
inductive Binding (α : Type) where
  | real (f : α)
  | stub (msg : String)
deriving Repr, DecidableEq

/-- The message of the underlying ImportError raised by a failed
from-exam import of one symbol. -/
def underlyingImportError (fn : String) : String :=
  "cannot import name " ++ sq ++ fn ++ sq ++ " from " ++ sq ++ "exam" ++ sq ++
    " (unknown location)"

/-- The message of the ImportError raised by the generated fallback callable:
the fixed text naming the symbol, followed by the underlying import error. -/
def notFoundMsg (fn : String) : String :=
  "Function \"" ++ fn ++ "\" not found. " ++ underlyingImportError fn

/-- One test case declared in the suite: its method name, its optional short
description, the exam symbols its body invokes in order, its verdict as a
function of the values those symbols resolved to, and the assertion text of
its failure trace. -/
structure TestCaseDef (α : Type) where
  name : String
  desc : Option String
  uses : List String
  passes : List α → Bool
  failMsg : String

/-- The Test Suite Definition as the adapter sees it once its source is
executable: the symbols of its dependency line and its declared test cases. -/
structure SuiteDef (α : Type) where
  declared : List String
  tests : List (TestCaseDef α)

/-- The environment the rewritten import section builds when executed against
a registry: every symbol of the dependency line is bound, to the value found
in the module registered under exam when the lookup succeeds and to the
raising fallback otherwise; symbols outside the dependency line are unbound. -/
def adapterEnv {α : Type} (sysMods : SysModules α) (declared : List String)
    (s : String) : Option (Binding α) :=
  if declared.contains s then
    match (sysMods.lookup "exam").bind (fun ns => ns.lookup s) with
    | some f => some (Binding.real f)
    | none => some (Binding.stub (notFoundMsg s))
  else none

/-- The loaded test module: its import environment and its test cases. -/
structure SuiteModule (α : Type) where
  env : String → Option (Binding α)
  tests : List (TestCaseDef α)

/-- Model of load_test_module_from_path: reading and rewriting the suite
source and executing it is abstracted as an Except value for the suite
definition; on success the rewritten import section binds every declared
symbol against the current registry. No registry write happens, which the
returned registry records, and a failure is propagated to the caller. -/
def load_test_module_from_path {α : Type}
    (parsedSuite : Except String (SuiteDef α)) (sysMods : SysModules α) :
    Except String (SuiteModule α) × SysModules α :=
  (parsedSuite.map (fun sd =>
    { env := adapterEnv sysMods sd.declared, tests := sd.tests }), sysMods)

/-! ### Test execution -/

/-- Walking the symbols a test body invokes, in order: the first invocation
that hits the raising fallback aborts the test with the formatted ImportError
trace, and an unbound name aborts it with a NameError trace. -/
def firstStubTrace {α : Type} (env : String → Option (Binding α)) :
    List String → Option String
  | [] => none
  | u :: us =>
      match env u with
      | some (Binding.real _) => firstStubTrace env us
      | some (Binding.stub m) => some (excInfoToString "ImportError" m)
      | none => some (excInfoToString "NameError"
          ("name " ++ sq ++ u ++ sq ++ " is not defined"))

/-- The values the invoked symbols resolve to, in invocation order, once no
invocation raises. -/
def realsOf {α : Type} (env : String → Option (Binding α))
    (us : List String) : List α :=
  us.filterMap (fun u =>
    match env u with
    | some (Binding.real f) => some f
    | _ => none)

/-- Outcome of executing one test case under an import environment: the
collector notification unittest delivers for it. -/
def runTestEvent {α : Type} (env : String → Option (Binding α))
    (t : TestCaseDef α) : TestEvent :=
  match firstStubTrace env t.uses with
  | some trace => TestEvent.error t.name t.desc trace
  | none =>
      if t.passes (realsOf env t.uses) then TestEvent.success t.name t.desc
      else TestEvent.failure t.name t.desc
        (excInfoToString "AssertionError" t.failMsg)

/-- Lexicographic code-point order on strings, the order Python uses to
compare strings. -/
def charListLe : List Char → List Char → Bool
  | [], _ => true
  | _ :: _, [] => false
  | a :: as, b :: bs =>
      if a.toNat < b.toNat then true
      else if b.toNat < a.toNat then false
      else charListLe as bs

/-- String comparison by code points. -/
def strLe (a b : String) : Bool :=
  charListLe a.data b.data

/-- Name order on test cases. -/
def tcLe {α : Type} (a b : TestCaseDef α) : Prop :=
  strLe a.name b.name = true

instance {α : Type} : DecidableRel (@tcLe α) :=
  fun a b => inferInstanceAs (Decidable (strLe a.name b.name = true))

/-- Model of unittest.defaultTestLoader.loadTestsFromModule: the test methods
of a case class are enumerated in the order of their names sorted by the
default three-way string comparison, not in declaration order. The sort is
stable, matching the stable list sort the loader applies. -/
def sortTests {α : Type} (ts : List (TestCaseDef α)) : List (TestCaseDef α) :=
  List.insertionSort tcLe ts

/-- Model of runner.run(suite) with the JSONTestResult collector: every loaded
test executes in loader order and delivers exactly one notification to the
collector; the returned list is the results attribute read back by
run_tests_for_student. -/
def runSuite {α : Type} (env : String → Option (Binding α))
    (ts : List (TestCaseDef α)) : List OutcomeRecord :=
  (collect ((sortTests ts).map (runTestEvent env))).results

/-! ### The per-submission runner -/

/-- The success envelope returned by run_tests_for_student, and also the
shape of every value that main_runner stores in the batch map. -/
structure Envelope where
  results : List OutcomeRecord
  exam : String
  testCode : String
  assignment : String
deriving Repr, DecidableEq

/-- The dynamically-typed return of run_tests_for_student: a list of outcome
records on a pipeline failure, a result envelope on success. -/
inductive SubmissionResult where
  | failure (recs : List OutcomeRecord)
  | success (e : Envelope)
deriving Repr, DecidableEq

/-- The synthetic record returned when the student module raises on load. -/
def moduleLoadErrorRecord (e : String) : OutcomeRecord :=
  { test := "ModuleLoadError",
    description := "El módulo del estudiante no pudo cargarse",
    result := "failed", reason := e }

/-- The synthetic record returned when the test module raises on load. -/
def testModuleLoadErrorRecord (e : String) : OutcomeRecord :=
  { test := "TestModuleLoadError",
    description := "El módulo de tests no pudo cargarse",
    result := "failed", reason := e }

/-- Steps of the runner that are observable after the student module loaded:
whether the test module load was attempted and which tests ran. An empty
trace means the pipeline stopped before touching the suite. -/
inductive RunEvent where
  | suiteLoadAttempted
  | testRan (name : String)
deriving Repr, DecidableEq

/-- Model of run_tests_for_student. The abstract inputs stand for the world
it reads: the outcome of executing the student source, the raw student and
suite source texts, and the outcome of reading, rewriting and executing the
suite source. The registry is threaded through exactly as the code touches
it: the student namespace is registered under exam right after its load
succeeds, before the suite is loaded, and nothing else is written. Running
the loaded suite is total in this model, so the TestExecutionError return of
the source, which only a harness-level crash of the unittest machinery could
reach, does not arise. -/
def run_tests_for_student {α : Type} (execStudent : Except String (Ns α))
    (studentSrc : String) (parsedSuite : Except String (SuiteDef α))
    (testSrc : String) (assignment : String) (sysMods : SysModules α) :
    SubmissionResult × SysModules α × List RunEvent :=
  match load_module_from_path execStudent sysMods with
  | (Except.error e, sm1) =>
      (SubmissionResult.failure [moduleLoadErrorRecord e], sm1, [])
  | (Except.ok studentModule, sm1) =>
      let sm2 := dictInsert sm1 "exam" studentModule
      match load_test_module_from_path parsedSuite sm2 with
      | (Except.error e, sm3) =>
          (SubmissionResult.failure [testModuleLoadErrorRecord e], sm3,
            [RunEvent.suiteLoadAttempted])
      | (Except.ok suiteMod, sm3) =>
          (SubmissionResult.success
            { results := runSuite suiteMod.env suiteMod.tests,
              exam := studentSrc, testCode := testSrc,
              assignment := assignment },
           sm3,
           RunEvent.suiteLoadAttempted ::
             (sortTests suiteMod.tests).map (fun t => RunEvent.testRan t.name))

/-! ### The batch orchestrator -/

/-- The per-file world of one batch run: the outcome of executing each
submission file, each raw source text, and the fixed suite. -/
structure BatchWorld (α : Type) where
  loadOf : String → Except String (Ns α)
  srcOf : String → String
  parsedSuite : Except String (SuiteDef α)
  testSrc : String

/-- The isinstance dispatch of main_runner on the runner return: a list is
wrapped into an envelope with empty source fields, an envelope is stored as
is. -/
def wrapResult (assignment : String) : SubmissionResult → Envelope
  | SubmissionResult.failure recs =>
      { results := recs, exam := "", testCode := "", assignment := assignment }
  | SubmissionResult.success e => e

/-- The loop of main_runner over the eligible files: runs each submission in
listing order, inserts its wrapped result into the batch dict keyed by the
filename stem, threads the registry, and records the processed stems. -/
def runnerLoop {α : Type} (w : BatchWorld α) (assignment : String) :
    List String → List (String × Envelope) → SysModules α → List String →
    List (String × Envelope) × SysModules α × List String
  | [], d, sm, processed => (d, sm, processed)
  | f :: fs, d, sm, processed =>
      let out := run_tests_for_student (w.loadOf f) (w.srcOf f)
        w.parsedSuite w.testSrc assignment sm
      runnerLoop w assignment fs
        (dictInsert d (pySplitextStem f) (wrapResult assignment out.1))
        out.2.1 (processed ++ [pySplitextStem f])

/-- Model of main_runner. The isDir flag is the os.path.isdir check on the
submissions directory and listing is the directory listing. When the check
fails the code prints a message and returns the empty string, a sentinel
distinct from every serialized batch, modelled as none; otherwise the files
ending in .py are processed in listing order and the assembled batch map is
returned, together with the final registry and the stems processed in
order. -/
def main_runner {α : Type} (isDir : Bool) (listing : List String)
    (w : BatchWorld α) (assignment : String) (sysMods : SysModules α) :
    Option (List (String × Envelope)) × SysModules α × List String :=
  if isDir then
    let out := runnerLoop w assignment
      (listing.filter (fun f => pyEndsWith f ".py")) [] sysMods []
    (some out.1, out.2.1, out.2.2)
  else (none, sysMods, [])

/-- The import environment that the rewritten suite builds right after the
runner registered a submission namespace under exam: only that namespace is
consulted. -/
def examEnv {α : Type} (ns : Ns α) (declared : List String) :
    String → Option (Binding α) :=
  adapterEnv [("exam", ns)] declared

/-- The envelope main_runner stores for one file, as a function of the file
alone: the runner result does not depend on the registry it is handed. -/
def studentValue {α : Type} (w : BatchWorld α) (assignment f : String) : Envelope :=
  wrapResult assignment
    (run_tests_for_student (w.loadOf f) (w.srcOf f) w.parsedSuite w.testSrc
      assignment []).1

/-- First test of tests/ejB.test.py, declared before the second. -/
def c4TestRow : TestCaseDef Nat :=
  { name := "test_load_matrix_invalid_row", desc := some "Test 1",
    uses := ["load_matrix"], passes := fun vs => vs = [7],
    failMsg := "lists differ" }

/-- Second test of tests/ejB.test.py, whose name sorts before the first. -/
def c4TestCol : TestCaseDef Nat :=
  { name := "test_load_matrix_invalid_col", desc := some "Test 2",
    uses := ["load_matrix"], passes := fun vs => vs = [7],
    failMsg := "lists differ" }

/-- An import environment resolving the one symbol both tests use. -/
def c4Env : String → Option (Binding Nat) :=
  examEnv [("load_matrix", 7)] ["load_matrix"]

/-- Declared symbols of the witness suite for C2. -/
def c2Declared : List String := ["load_matrix", "count_letters"]

/-- A submission defining only load_matrix. -/
def c2NsSub : Ns Nat := [("load_matrix", 7)]

/-- A complete namespace agreeing with the partial one. -/
def c2NsFull : Ns Nat := [("load_matrix", 7), ("count_letters", 9)]

/-- A test invoking only the present symbol. -/
def c2TestPresent : TestCaseDef Nat :=
  { name := "test_load_matrix_valid", desc := some "Test 3",
    uses := ["load_matrix"], passes := fun vs => vs = [7],
    failMsg := "lists differ" }

/-- A test invoking the missing symbol. -/
def c2TestMissing : TestCaseDef Nat :=
  { name := "test_count_letters", desc := some "Test 4",
    uses := ["count_letters"], passes := fun vs => vs = [9],
    failMsg := "lists differ" }

/-- The witness suite for C2. -/
def c2Tests : List (TestCaseDef Nat) := [c2TestPresent, c2TestMissing]

/-- The batch world of the witness for C1: one submission loads, one fails,
one file is ineligible. -/
def c1World : BatchWorld Nat :=
  { loadOf := fun f =>
      if f = "alice.py" then Except.ok [("load_matrix", 7)]
      else Except.error ("cannot load " ++ f),
    srcOf := fun _ => "src",
    parsedSuite := Except.ok { declared := ["load_matrix"], tests := [] },
    testSrc := "tests" }

/-- The batch world of the counterexample for C1: every load fails with the
filename as the exception text, so the stored value shows which file wrote
it. -/
def cexWorld : BatchWorld Nat :=
  { loadOf := fun f => Except.error f,
    srcOf := fun _ => "",
    parsedSuite := Except.error "nope",
    testSrc := "" }

/-! ### General lemmas -/

theorem charListLe_total : ∀ a b : List Char, (charListLe a b || charListLe b a) = true := by
  intro a
  induction a with
  | nil => intro b; simp [charListLe]
  | cons x xs ih =>
    intro b
    cases b with
    | nil => simp [charListLe]
    | cons y ys =>
      simp only [charListLe]
      rcases Nat.lt_trichotomy x.toNat y.toNat with h | h | h
      · simp [h]
      · simp [h, Nat.lt_irrefl, ih ys]
      · simp [h, Nat.lt_asymm h]

theorem charListLe_trans : ∀ a b c : List Char, charListLe a b = true →
    charListLe b c = true → charListLe a c = true := by
  intro a
  induction a with
  | nil => intro b c _ _; simp [charListLe]
  | cons x xs ih =>
    intro b c h1 h2
    cases b with
    | nil => simp [charListLe] at h1
    | cons y ys =>
      cases c with
      | nil => simp [charListLe] at h2
      | cons z zs =>
        simp only [charListLe] at h1 h2 ⊢
        split_ifs at h1 h2 ⊢ with hxy hyx hyz hzy hxz hzx <;>
          first
          | rfl
          | omega
          | exact ih ys zs h1 h2

instance {α : Type} : IsTotal (TestCaseDef α) tcLe :=
  ⟨fun a b => by
    have h := charListLe_total a.name.data b.name.data
    rcases Bool.or_eq_true_iff.mp h with h | h
    · exact Or.inl h
    · exact Or.inr h⟩

instance {α : Type} : IsTrans (TestCaseDef α) tcLe :=
  ⟨fun a b c hab hbc => charListLe_trans _ _ _ hab hbc⟩

theorem collect_foldl_results (r : JSONTestResult) (evs : List TestEvent) :
    (evs.foldl applyEvent r).results = r.results ++ evs.map recordOf := by
  induction evs generalizing r with
  | nil => simp
  | cons e evs ih =>
    cases e <;>
      simp [List.foldl_cons, applyEvent, ih, recordOf, JSONTestResult.addSuccess,
        JSONTestResult.addFailure, JSONTestResult.addError, List.append_assoc]

theorem collect_results (evs : List TestEvent) :
    (collect evs).results = evs.map recordOf := by
  simpa [collect] using collect_foldl_results { results := [] } evs

theorem lookup_cons_pair_self {β : Type} (k : String) (v : β) (ps : List (String × β)) :
    List.lookup k ((k, v) :: ps) = some v := by
  simp [List.lookup]

theorem lookup_cons_pair_ne {β : Type} (k pk : String) (pv : β) (ps : List (String × β))
    (h : k ≠ pk) : List.lookup k ((pk, pv) :: ps) = List.lookup k ps := by
  simp [List.lookup, beq_eq_false_iff_ne.mpr h]

theorem lookup_overwriteMap_self {β : Type} (k : String) (v : β) :
    ∀ d : List (String × β), k ∈ d.map Prod.fst →
      (d.map (fun p => if p.1 = k then (k, v) else p)).lookup k = some v := by
  intro d
  induction d with
  | nil => intro h; simp at h
  | cons p ps ih =>
    obtain ⟨pk, pv⟩ := p
    intro h
    by_cases hp : pk = k
    · simp only [List.map_cons, if_pos hp]
      exact lookup_cons_pair_self k v _
    · have hk : k ≠ pk := fun hk => hp hk.symm
      have hmem : k ∈ ps.map Prod.fst := by
        have h2 : k = pk ∨ ∃ x, (k, x) ∈ ps := by simpa using h
        rcases h2 with h0 | ⟨x, hx⟩
        · exact absurd h0.symm hp
        · exact List.mem_map.mpr ⟨(k, x), hx, rfl⟩
      simp only [List.map_cons, if_neg hp]
      rw [lookup_cons_pair_ne k pk pv _ hk]
      exact ih hmem

theorem lookup_overwriteMap_ne {β : Type} (k k2 : String) (v : β) (h : k2 ≠ k) :
    ∀ d : List (String × β),
      (d.map (fun p => if p.1 = k then (k, v) else p)).lookup k2 = d.lookup k2 := by
  intro d
  induction d with
  | nil => simp
  | cons p ps ih =>
    obtain ⟨pk, pv⟩ := p
    by_cases hp : pk = k
    · simp only [List.map_cons, if_pos hp]
      rw [lookup_cons_pair_ne k2 k v _ h, lookup_cons_pair_ne k2 pk pv _ (hp ▸ h), ih]
    · simp only [List.map_cons, if_neg hp]
      by_cases hp2 : k2 = pk
      · subst hp2
        rw [lookup_cons_pair_self, lookup_cons_pair_self]
      · rw [lookup_cons_pair_ne k2 pk pv _ hp2, lookup_cons_pair_ne k2 pk pv _ hp2, ih]

theorem lookup_append_single_self {β : Type} (k : String) (v : β) :
    ∀ d : List (String × β), k ∉ d.map Prod.fst →
      (d ++ [(k, v)]).lookup k = some v := by
  intro d
  induction d with
  | nil => simp [List.lookup]
  | cons p ps ih =>
    obtain ⟨pk, pv⟩ := p
    intro h
    have hk : k ≠ pk := by
      intro hk
      exact h (by simp [hk])
    have h2 : k ∉ ps.map Prod.fst := by
      intro hm
      exact h (by simp; right; simpa using hm)
    rw [List.cons_append, lookup_cons_pair_ne k pk pv _ hk]
    exact ih h2

theorem lookup_append_single_ne {β : Type} (k k2 : String) (v : β) (h : k2 ≠ k) :
    ∀ d : List (String × β), (d ++ [(k, v)]).lookup k2 = d.lookup k2 := by
  intro d
  induction d with
  | nil => simp [List.lookup, beq_eq_false_iff_ne.mpr h]
  | cons p ps ih =>
    obtain ⟨pk, pv⟩ := p
    by_cases hp2 : k2 = pk
    · subst hp2
      rw [List.cons_append, lookup_cons_pair_self, lookup_cons_pair_self]
    · rw [List.cons_append, lookup_cons_pair_ne k2 pk pv _ hp2,
        lookup_cons_pair_ne k2 pk pv _ hp2, ih]

theorem lookup_dictInsert_self {β : Type} (d : List (String × β)) (k : String) (v : β) :
    (dictInsert d k v).lookup k = some v := by
  unfold dictInsert
  split
  · next hc => exact lookup_overwriteMap_self k v d (by simpa using hc)
  · next hc =>
    refine lookup_append_single_self k v d ?_
    intro hm
    exact hc (by simpa using hm)

theorem lookup_dictInsert_ne {β : Type} (d : List (String × β)) (k k2 : String) (v : β)
    (h : k2 ≠ k) : (dictInsert d k v).lookup k2 = d.lookup k2 := by
  unfold dictInsert
  split
  · exact lookup_overwriteMap_ne k k2 v h d
  · exact lookup_append_single_ne k k2 v h d

theorem dictInsert_of_fresh {β : Type} (d : List (String × β)) (k : String) (v : β)
    (h : k ∉ d.map Prod.fst) : dictInsert d k v = d ++ [(k, v)] := by
  unfold dictInsert
  rw [if_neg]
  intro hc
  exact h (by simpa using hc)

/-! ### Lemmas about the runner -/

theorem adapterEnv_insert_eq {α : Type} (sm : SysModules α) (ns : Ns α)
    (declared : List String) :
    adapterEnv (dictInsert sm "exam" ns) declared = examEnv ns declared := by
  funext s
  unfold examEnv adapterEnv
  rw [lookup_dictInsert_self, lookup_cons_pair_self]

theorem run_registry {α : Type} (ex : Except String (Ns α)) (ss : String)
    (sp : Except String (SuiteDef α)) (ts a : String) (sm : SysModules α) :
    (run_tests_for_student ex ss sp ts a sm).2.1 =
      match ex with
      | Except.error _ => sm
      | Except.ok ns => dictInsert sm "exam" ns := by
  cases ex <;> cases sp <;> rfl

theorem run_result_registry_free {α : Type} (ex : Except String (Ns α)) (ss : String)
    (sp : Except String (SuiteDef α)) (ts a : String) (sm sm2 : SysModules α) :
    (run_tests_for_student ex ss sp ts a sm).1 =
      (run_tests_for_student ex ss sp ts a sm2).1 := by
  cases ex with
  | error e => rfl
  | ok ns =>
    cases sp with
    | error e => rfl
    | ok sd =>
      show SubmissionResult.success _ = SubmissionResult.success _
      simp only [adapterEnv_insert_eq]

theorem run_success_shape {α : Type} (ns : Ns α) (ss : String) (sd : SuiteDef α)
    (ts a : String) (sm : SysModules α) :
    run_tests_for_student (Except.ok ns) ss (Except.ok sd) ts a sm =
      (SubmissionResult.success
        { results := runSuite (examEnv ns sd.declared) sd.tests,
          exam := ss, testCode := ts, assignment := a },
       dictInsert sm "exam" ns,
       RunEvent.suiteLoadAttempted ::
         (sortTests sd.tests).map (fun t => RunEvent.testRan t.name)) := by
  simp only [run_tests_for_student, load_module_from_path, load_test_module_from_path,
    Except.map, adapterEnv_insert_eq]

theorem firstStubTrace_congr {α : Type} (env1 env2 : String → Option (Binding α)) :
    ∀ us : List String, (∀ u ∈ us, env1 u = env2 u) →
      firstStubTrace env1 us = firstStubTrace env2 us := by
  intro us
  induction us with
  | nil => intro _; rfl
  | cons u us ih =>
    intro h
    have hu := h u (by simp)
    simp only [firstStubTrace, hu]
    cases env2 u with
    | none => rfl
    | some b =>
      cases b with
      | real f => exact ih (fun x hx => h x (by simp [hx]))
      | stub m => rfl

theorem runTestEvent_congr {α : Type} (env1 env2 : String → Option (Binding α))
    (t : TestCaseDef α) (h : ∀ u ∈ t.uses, env1 u = env2 u) :
    runTestEvent env1 t = runTestEvent env2 t := by
  unfold runTestEvent realsOf
  rw [firstStubTrace_congr env1 env2 t.uses h,
    List.filterMap_congr (fun x hx => by rw [h x hx])]

theorem firstStubTrace_of_all_real {α : Type} (env : String → Option (Binding α)) :
    ∀ us : List String, (∀ u ∈ us, ∃ f : α, env u = some (Binding.real f)) →
      firstStubTrace env us = none := by
  intro us
  induction us with
  | nil => intro _; rfl
  | cons u us ih =>
    intro h
    obtain ⟨f, hf⟩ := h u (by simp)
    simp only [firstStubTrace, hf]
    exact ih (fun x hx => h x (by simp [hx]))

theorem firstStubTrace_split {α : Type} (env : String → Option (Binding α))
    (si m : String) :
    ∀ us1 us2 : List String,
      (∀ u ∈ us1, ∃ f : α, env u = some (Binding.real f)) →
      env si = some (Binding.stub m) →
      firstStubTrace env (us1 ++ si :: us2) =
        some (excInfoToString "ImportError" m) := by
  intro us1
  induction us1 with
  | nil =>
    intro us2 _ hsi
    simp only [List.nil_append, firstStubTrace, hsi]
  | cons u us ih =>
    intro us2 h hsi
    obtain ⟨f, hf⟩ := h u (by simp)
    simp only [List.cons_append, firstStubTrace, hf]
    exact ih us2 (fun x hx => h x (by simp [hx])) hsi

theorem runSuite_eq_map {α : Type} (env : String → Option (Binding α))
    (ts : List (TestCaseDef α)) :
    runSuite env ts = (sortTests ts).map (fun t => recordOf (runTestEvent env t)) := by
  unfold runSuite
  rw [collect_results, List.map_map]
  rfl

theorem recordOf_test {α : Type} (env : String → Option (Binding α))
    (t : TestCaseDef α) : (recordOf (runTestEvent env t)).test = t.name := by
  unfold runTestEvent
  cases firstStubTrace env t.uses with
  | some tr => rfl
  | none =>
    by_cases hp : t.passes (realsOf env t.uses) <;> simp [hp, recordOf]

/-! ### Lemmas about the batch loop -/

theorem runnerLoop_batch {α : Type} (w : BatchWorld α) (a : String) :
    ∀ (fs : List String) (d : List (String × Envelope)) (sm : SysModules α)
      (pr : List String),
      (runnerLoop w a fs d sm pr).1 =
        fs.foldl (fun d0 f => dictInsert d0 (pySplitextStem f) (studentValue w a f)) d := by
  intro fs
  induction fs with
  | nil => intro d sm pr; rfl
  | cons f fs ih =>
    intro d sm pr
    simp only [runnerLoop, List.foldl_cons]
    rw [ih]
    rw [run_result_registry_free (w.loadOf f) (w.srcOf f) w.parsedSuite w.testSrc a sm []]
    rfl

theorem runnerLoop_processed {α : Type} (w : BatchWorld α) (a : String) :
    ∀ (fs : List String) (d : List (String × Envelope)) (sm : SysModules α)
      (pr : List String),
      (runnerLoop w a fs d sm pr).2.2 = pr ++ fs.map pySplitextStem := by
  intro fs
  induction fs with
  | nil => intro d sm pr; simp [runnerLoop]
  | cons f fs ih =>
    intro d sm pr
    simp only [runnerLoop, List.map_cons]
    rw [ih]
    simp

theorem runnerLoop_registry {α : Type} (w : BatchWorld α) (a : String) :
    ∀ (fs : List String) (d : List (String × Envelope)) (sm : SysModules α)
      (pr : List String),
      (runnerLoop w a fs d sm pr).2.1.lookup "exam" =
        fs.foldl (fun acc f =>
          match w.loadOf f with
          | Except.ok ns => some ns
          | Except.error _ => acc) (sm.lookup "exam") := by
  intro fs
  induction fs with
  | nil => intro d sm pr; rfl
  | cons f fs ih =>
    intro d sm pr
    simp only [runnerLoop, List.foldl_cons]
    rw [ih]
    congr 1
    rw [run_registry]
    cases w.loadOf f with
    | error e => rfl
    | ok ns => exact lookup_dictInsert_self sm "exam" ns

theorem foldl_dictInsert_fresh {σ β : Type} (key : σ → String) (val : σ → β) :
    ∀ (fs : List σ) (d : List (String × β)),
      (fs.map key).Nodup → (∀ f ∈ fs, key f ∉ d.map Prod.fst) →
      fs.foldl (fun d0 f => dictInsert d0 (key f) (val f)) d =
        d ++ fs.map (fun f => (key f, val f)) := by
  intro fs
  induction fs with
  | nil => intro d _ _; simp
  | cons f fs ih =>
    intro d hnd hfresh
    have hl : key f ∉ fs.map key ∧ (fs.map key).Nodup := by
      rw [List.map_cons] at hnd
      exact List.nodup_cons.mp hnd
    have hhead : key f ∉ fs.map key := hl.1
    have htail : (fs.map key).Nodup := hl.2
    simp only [List.foldl_cons]
    rw [dictInsert_of_fresh d (key f) (val f) (hfresh f (by simp))]
    rw [ih (d ++ [(key f, val f)]) htail ?_]
    · simp
    · intro g hg
      intro hmem
      rcases (by simpa using hmem : key g ∈ d.map Prod.fst ∨ key g = key f) with hm | hm
      · exact hfresh g (by simp [hg]) hm
      · exact hhead (hm ▸ List.mem_map_of_mem key hg)

theorem lookup_map_pair {σ β : Type} (key : σ → String) (val : σ → β) :
    ∀ (fs : List σ) (f : σ), (fs.map key).Nodup → f ∈ fs →
      (fs.map (fun g => (key g, val g))).lookup (key f) = some (val f) := by
  intro fs
  induction fs with
  | nil => intro f _ h; simp at h
  | cons g gs ih =>
    intro f hnd hmem
    have hl : key g ∉ gs.map key ∧ (gs.map key).Nodup := by
      rw [List.map_cons] at hnd
      exact List.nodup_cons.mp hnd
    rcases List.mem_cons.mp hmem with h0 | h0
    · subst h0
      exact lookup_cons_pair_self (key f) (val f) _
    · have hne : key f ≠ key g := by
        intro he
        exact hl.1 (he ▸ List.mem_map_of_mem key h0)
      rw [List.map_cons, lookup_cons_pair_ne (key f) (key g) (val g) _ hne]
      exact ih f hl.2 h0

theorem lookup_mem {β : Type} (k : String) (v : β) :
    ∀ l : List (String × β), l.lookup k = some v → (k, v) ∈ l := by
  intro l
  induction l with
  | nil => intro h; simp [List.lookup] at h
  | cons p ps ih =>
    obtain ⟨pk, pv⟩ := p
    intro h
    by_cases hk : k = pk
    · subst hk
      rw [lookup_cons_pair_self] at h
      simp [Option.some_inj.mp h]
    · rw [lookup_cons_pair_ne k pk pv ps hk] at h
      exact List.mem_cons_of_mem _ (ih h)

theorem lookup_isSome_mem {β : Type} (k : String) (l : List (String × β))
    (h : (l.lookup k).isSome = true) : k ∈ l.map Prod.fst := by
  obtain ⟨v, hv⟩ := Option.isSome_iff_exists.mp h
  exact List.mem_map.mpr ⟨(k, v), lookup_mem k v l hv, rfl⟩

theorem findIdx?_none_of_all {γ : Type} (p : γ → Bool) :
    ∀ (l : List γ) (i : Nat), (∀ x ∈ l, p x = false) → List.findIdx? p l i = none := by
  intro l
  induction l with
  | nil => intro i _; rfl
  | cons x xs ih =>
    intro i h
    simp only [List.findIdx?, h x (by simp)]
    exact ih (i + 1) (fun y hy => h y (by simp [hy]))

theorem findIdx?_append_first {γ : Type} (p : γ → Bool) (x : γ) (rest : List γ)
    (hx : p x = true) :
    ∀ (fr : List γ) (i : Nat), (∀ y ∈ fr, p y = false) →
      List.findIdx? p (fr ++ x :: rest) i = some (i + fr.length) := by
  intro fr
  induction fr with
  | nil =>
    intro i _
    simp [List.findIdx?, hx]
  | cons y ys ih =>
    intro i h
    have hy : p y = false := h y (by simp)
    simp only [List.cons_append, List.findIdx?, hy, List.append_eq,
      Bool.false_eq_true, if_false]
    rw [ih (i + 1) (fun z hz => h z (by simp [hz]))]
    congr 1
    simp only [List.length_cons]
    omega

theorem getD_append_cons {γ : Type} (d x : γ) :
    ∀ (fr rest : List γ), (fr ++ x :: rest).getD fr.length d = x := by
  intro fr
  induction fr with
  | nil => intro rest; rfl
  | cons y ys ih => intro rest; simpa using ih rest

/-- Shape analysis of a runner return: a success envelope, or a singleton
failure list whose record has result failed and one of the two reachable
synthetic identifiers. -/
theorem run_result_cases {α : Type} (ex : Except String (Ns α)) (ss : String)
    (sp : Except String (SuiteDef α)) (ts a : String) (sm : SysModules α) :
    (∃ e0, (run_tests_for_student ex ss sp ts a sm).1 = SubmissionResult.success e0) ∨
    (∃ r, (run_tests_for_student ex ss sp ts a sm).1 = SubmissionResult.failure [r] ∧
      r.result = "failed" ∧
      (r.test = "ModuleLoadError" ∨ r.test = "TestModuleLoadError")) := by
  cases ex with
  | error e =>
    exact Or.inr ⟨moduleLoadErrorRecord e, rfl, rfl, Or.inl rfl⟩
  | ok ns =>
    cases sp with
    | error e =>
      exact Or.inr ⟨testModuleLoadErrorRecord e, rfl, rfl, Or.inr rfl⟩
    | ok sd =>
      exact Or.inl ⟨_, rfl⟩

/-! ### The claims -/

/-- Claim C3: when the submissions directory does not exist, main_runner stops
before processing any submission: it returns the sentinel that stands for no
batch, the registry is untouched, and no submission stem was processed. The
condition is surfaced as the printed directory-not-found message together
with the sentinel return, which is distinct from every serialized batch. -/
theorem c3_missing_directory {α : Type} (listing : List String) (w : BatchWorld α)
    (a : String) (sm : SysModules α) :
    main_runner false listing w a sm = (none, sm, []) := rfl

/-- Claim C5: when the student source cannot be executed as a module, the
runner returns exactly the single-element ModuleLoadError list with result
failed and the exception text as reason, the registry is untouched, and the
empty event trace records that the suite was never loaded and no test ran. -/
theorem c5_module_load_failure {α : Type} (e ssrc tsrc a : String)
    (sp : Except String (SuiteDef α)) (sm : SysModules α) :
    run_tests_for_student (Except.error e) ssrc sp tsrc a sm =
      (SubmissionResult.failure
        [{ test := "ModuleLoadError",
           description := "El módulo del estudiante no pudo cargarse",
           result := "failed",
           reason := e }], sm, []) := rfl

/-- Claim C6: load_module_from_path returns the loaded namespace without
writing the registry, and load_test_module_from_path writes nothing either;
inside run_tests_for_student the only registry write is the registration of
the student namespace under exam, so every other key, in particular the test
module name, keeps its prior binding. -/
theorem c6_loader_no_registration {α : Type} (ex : Except String (Ns α))
    (sp : Except String (SuiteDef α)) (ns : Ns α) (ssrc tsrc a : String)
    (sm : SysModules α) :
    (load_module_from_path ex sm).2 = sm ∧
    (load_module_from_path ex sm).1 = ex ∧
    (load_test_module_from_path sp sm).2 = sm ∧
    (run_tests_for_student (Except.ok ns) ssrc sp tsrc a sm).2.1 =
      dictInsert sm "exam" ns ∧
    (∀ k : String, k ≠ "exam" →
      (run_tests_for_student (Except.ok ns) ssrc sp tsrc a sm).2.1.lookup k =
        sm.lookup k) := by
  refine ⟨rfl, rfl, rfl, ?_, ?_⟩
  · rw [run_registry]
  · intro k hk
    rw [run_registry]
    exact lookup_dictInsert_ne sm "exam" k ns hk

/-- Witness for C6: with a prior binding for the test module name, a full
run of the per-submission runner leaves that binding unchanged. -/
theorem c6_witness :
    (run_tests_for_student (Except.ok ([("f", 1)] : Ns Nat)) "" (Except.error "x")
      "" "A" [("exam_test_module", [("old", 0)])]).2.1.lookup "exam_test_module" =
      some [("old", 0)] := by
  have h := (c6_loader_no_registration (Except.ok ([("f", 1)] : Ns Nat))
    (Except.error "x") [("f", 1)] "" "" "A"
    [("exam_test_module", [("old", 0)])]).2.2.2.2 "exam_test_module" (by decide)
  rw [h]
  rfl

/-- Claim C8: each collector callback appends exactly one record of the
documented shape, in execution order, dropping nothing: a full run collects
exactly the per-event records in order. -/
theorem c8_collector_shape (r : JSONTestResult) (name trace : String)
    (desc : Option String) (evs : List TestEvent) :
    (r.addSuccess name desc).results = r.results ++
      [{ test := name, description := desc.getD "", result := "PASSED",
         reason := "Test passed successfully" }] ∧
    (r.addFailure name desc trace).results = r.results ++
      [{ test := name, description := desc.getD "", result := "FAILED",
         reason := trace }] ∧
    (r.addError name desc trace).results = r.results ++
      [{ test := name, description := desc.getD "", result := "ERROR",
         reason := trace }] ∧
    (collect evs).results = evs.map recordOf :=
  ⟨rfl, rfl, rfl, collect_results evs⟩

/-- Claim C10: the runner never clears the exam registration: a failed load
leaves the registry untouched, a successful load leaves its namespace
registered under exam even when the suite then fails, and after a whole
batch the exam key holds the namespace of the last submission whose load
succeeded, or the prior registration when none succeeded. -/
theorem c10_exam_persistence {α : Type} (w : BatchWorld α) (a : String)
    (listing : List String) (sm : SysModules α) (e ssrc tsrc : String)
    (sp : Except String (SuiteDef α)) (ns : Ns α) :
    ((run_tests_for_student (Except.error e) ssrc sp tsrc a sm).2.1 = sm) ∧
    ((run_tests_for_student (Except.ok ns) ssrc sp tsrc a sm).2.1.lookup "exam" =
      some ns) ∧
    ((main_runner true listing w a sm).2.1.lookup "exam" =
      (listing.filter (fun f => pyEndsWith f ".py")).foldl
        (fun acc f =>
          match w.loadOf f with
          | Except.ok ns0 => some ns0
          | Except.error _ => acc) (sm.lookup "exam")) := by
  refine ⟨by rw [run_registry], ?_, ?_⟩
  · rw [run_registry]
    exact lookup_dictInsert_self sm "exam" ns
  · show (runnerLoop w a _ [] sm []).2.1.lookup "exam" = _
    exact runnerLoop_registry w a _ [] sm []

/-- Claim C4, amended: the outcome records of one suite run list exactly the
loaded test cases, in the order the default loader enumerates them, which is
the order of the test method names sorted by the default three-way string
comparison; this is a sorted permutation of the declared names, with one
record per declared test, but it is the declared textual order only when the
names happen to be declared in sorted order. -/
theorem c4_amended {α : Type} (env : String → Option (Binding α))
    (ts : List (TestCaseDef α)) :
    (runSuite env ts).map (fun r => r.test) = (sortTests ts).map (fun t => t.name) ∧
    List.Sorted tcLe (sortTests ts) ∧
    ((runSuite env ts).map (fun r => r.test)).Perm (ts.map (fun t => t.name)) ∧
    (runSuite env ts).length = ts.length := by
  have h1 : (runSuite env ts).map (fun r => r.test) =
      (sortTests ts).map (fun t => t.name) := by
    rw [runSuite_eq_map, List.map_map]
    exact List.map_congr_left (fun t _ => recordOf_test env t)
  refine ⟨h1, List.sorted_insertionSort tcLe ts, ?_, ?_⟩
  · rw [h1]
    exact (List.perm_insertionSort tcLe ts).map (fun t => t.name)
  · rw [runSuite_eq_map, List.length_map]
    exact (List.perm_insertionSort tcLe ts).length_eq

/-- Counterexample to claim C4 as stated: for the first two tests of
tests/ejB.test.py, declared row before col, the emitted records are ordered
col before row, because the loader sorts method names, so the records do not
follow the declared textual order. -/
theorem c4_counterexample :
    (runSuite c4Env [c4TestRow, c4TestCol]).map (fun r => r.test) =
      ["test_load_matrix_invalid_col", "test_load_matrix_invalid_row"] ∧
    [c4TestRow, c4TestCol].map (fun t => t.name) =
      ["test_load_matrix_invalid_row", "test_load_matrix_invalid_col"] ∧
    (runSuite c4Env [c4TestRow, c4TestCol]).map (fun r => r.test) ≠
      [c4TestRow, c4TestCol].map (fun t => t.name) :=
  ⟨by decide, by decide, by decide⟩

/-- Claim C7: a test source without a dependency line is executed unmodified,
so a failure of the unmodified source is surfaced by the adapter to the
runner, which records it; and when matching lines exist the rewrite replaces
the first one only, leaving every other line, including later matches,
unchanged. -/
theorem c7_rewrite_scope {α : Type} (lines fr rest : List String) (l0 g e : String)
    (sm : SysModules α) (ns : Ns α) (ssrc tsrc a : String)
    (h1 : ∀ l ∈ lines, depLineParse l = none)
    (h2 : ∀ l ∈ fr, depLineParse l = none)
    (h3 : depLineParse l0 = some g) :
    rewriteTestSource lines = lines ∧
    (load_test_module_from_path (α := α) (Except.error e) sm).1 = Except.error e ∧
    run_tests_for_student (Except.ok ns) ssrc (Except.error e) tsrc a sm =
      (SubmissionResult.failure [testModuleLoadErrorRecord e],
        dictInsert sm "exam" ns, [RunEvent.suiteLoadAttempted]) ∧
    rewriteTestSource (fr ++ l0 :: rest) =
      fr ++ replacementBlock (funcListOf g) ++ [""] ++ rest := by
  refine ⟨?_, rfl, rfl, ?_⟩
  · have hnone : lines.findIdx? (fun l => (depLineParse l).isSome) = none :=
      findIdx?_none_of_all _ lines 0 (fun x hx => by rw [h1 x hx]; rfl)
    unfold rewriteTestSource
    rw [hnone]
  · have hfid : (fr ++ l0 :: rest).findIdx? (fun l => (depLineParse l).isSome) =
        some fr.length := by
      have h := findIdx?_append_first (fun l => (depLineParse l).isSome) l0 rest
        (by show (depLineParse l0).isSome = true; rw [h3]; rfl) fr 0
        (fun y hy => by show (depLineParse y).isSome = false; rw [h2 y hy]; rfl)
      simpa using h
    have hdrop : (fr ++ l0 :: rest).drop (fr.length + 1) = rest := by
      have he : fr ++ l0 :: rest = (fr ++ [l0]) ++ rest := by simp
      have hl : fr.length + 1 = (fr ++ [l0]).length := by simp
      rw [he, hl, List.drop_left]
    unfold rewriteTestSource
    rw [hfid]
    show (fr ++ l0 :: rest).take fr.length ++ _ ++ [""] ++
      (fr ++ l0 :: rest).drop (fr.length + 1) = _
    rw [List.take_left, hdrop, getD_append_cons "" l0 fr rest, h3]
    rfl

/-- Witness for C7: a two-line source with no dependency line is left alone,
and a three-line source whose middle line is the dependency line keeps its
first and last lines and gets the generated block in the middle. -/
theorem c7_witness :
    rewriteTestSource ["import unittest", "x = 1"] = ["import unittest", "x = 1"] ∧
    rewriteTestSource (["import unittest"] ++ "from exam import a, b" ::
        ["class T: pass"]) =
      ["import unittest"] ++ replacementBlock (funcListOf "a, b") ++ [""] ++
        ["class T: pass"] := by
  have h := c7_rewrite_scope (α := Nat) ["import unittest", "x = 1"]
    ["import unittest"] ["class T: pass"] "from exam import a, b" "a, b" "boom"
    [] [("a", 1)] "" "" "A" (by decide) (by decide) (by decide)
  exact ⟨h.1, h.2.2.2⟩

/-- Claim C9: after submission A ran, running submission B rebinds exam to
the namespace of B alone, so a symbol that only A defined resolves, during
the run of B, to the raising fallback and never to the value A gave it,
while the run of A itself had bound it to that value. -/
theorem c9_isolation {α : Type} (nsA nsB : Ns α) (declared : List String)
    (tests : List (TestCaseDef α)) (sA sB tS a : String) (sm : SysModules α)
    (s : String) (v : α)
    (hA : nsA.lookup s = some v) (hB : nsB.lookup s = none)
    (hd : declared.contains s = true) :
    (run_tests_for_student (Except.ok nsB) sB
        (Except.ok ⟨declared, tests⟩) tS a
        (run_tests_for_student (Except.ok nsA) sA
          (Except.ok ⟨declared, tests⟩) tS a sm).2.1).1 =
      SubmissionResult.success
        { results := runSuite (examEnv nsB declared) tests, exam := sB,
          testCode := tS, assignment := a } ∧
    examEnv nsA declared s = some (Binding.real v) ∧
    examEnv nsB declared s = some (Binding.stub (notFoundMsg s)) ∧
    (∀ f0 : α, examEnv nsB declared s ≠ some (Binding.real f0)) := by
  have hBstub : examEnv nsB declared s = some (Binding.stub (notFoundMsg s)) := by
    unfold examEnv adapterEnv
    rw [if_pos hd, lookup_cons_pair_self]
    show (match nsB.lookup s with
      | some f => some (Binding.real f)
      | none => some (Binding.stub (notFoundMsg s))) = _
    rw [hB]
  refine ⟨?_, ?_, hBstub, ?_⟩
  · rw [run_success_shape]
  · unfold examEnv adapterEnv
    rw [if_pos hd, lookup_cons_pair_self]
    show (match nsA.lookup s with
      | some f => some (Binding.real f)
      | none => some (Binding.stub (notFoundMsg s))) = _
    rw [hA]
  · intro f0 hcontra
    rw [hBstub] at hcontra
    exact Binding.noConfusion (Option.some_inj.mp hcontra)

theorem examEnv_real {α : Type} (ns : Ns α) (declared : List String) (u : String)
    (f : α) (hd : declared.contains u = true) (hu : ns.lookup u = some f) :
    examEnv ns declared u = some (Binding.real f) := by
  unfold examEnv adapterEnv
  rw [if_pos hd, lookup_cons_pair_self]
  show (match ns.lookup u with
    | some f0 => some (Binding.real f0)
    | none => some (Binding.stub (notFoundMsg u))) = _
  rw [hu]

theorem examEnv_stub {α : Type} (ns : Ns α) (declared : List String) (u : String)
    (hd : declared.contains u = true) (hu : ns.lookup u = none) :
    examEnv ns declared u = some (Binding.stub (notFoundMsg u)) := by
  unfold examEnv adapterEnv
  rw [if_pos hd, lookup_cons_pair_self]
  show (match ns.lookup u with
    | some f0 => some (Binding.real f0)
    | none => some (Binding.stub (notFoundMsg u))) = _
  rw [hu]

/-- Claim C2: with a submission defining only a strict subset of the declared
symbols, the rewritten suite still loads, in that the runner reaches the
success envelope and every declared symbol is bound after the rewrite; each
executed test whose body first invokes a missing symbol si yields an ERROR
record whose reason contains the fixed text naming si followed by the
underlying import error; each test invoking only present symbols behaves
exactly as it would against a namespace with no symbol missing. -/
theorem c2_partial_submission {α : Type} (declared : List String)
    (tests : List (TestCaseDef α)) (nsSub nsFull : Ns α) (ssrc tsrc a : String)
    (sm : SysModules α)
    (hSub : (nsSub.map Prod.fst).all (fun s => declared.contains s) = true)
    (hStrict : declared.any (fun s => (nsSub.lookup s).isNone) = true)
    (hFull : declared.all (fun s => (nsFull.lookup s).isSome) = true)
    (hAgree : ∀ p ∈ nsSub, nsFull.lookup p.1 = some p.2) :
    (run_tests_for_student (Except.ok nsSub) ssrc
        (Except.ok ⟨declared, tests⟩) tsrc a sm).1 =
      SubmissionResult.success
        { results := runSuite (examEnv nsSub declared) tests,
          exam := ssrc, testCode := tsrc, assignment := a } ∧
    (∀ s : String, declared.contains s = true →
      ∃ b, examEnv nsSub declared s = some b) ∧
    (∀ t ∈ tests, ∀ us1 si us2, t.uses = us1 ++ si :: us2 →
      us1.all (fun u => (nsSub.lookup u).isSome) = true →
      nsSub.lookup si = none → declared.contains si = true →
      recordOf (runTestEvent (examEnv nsSub declared) t) =
        { test := t.name, description := t.desc.getD "", result := "ERROR",
          reason := excInfoToString "ImportError" (notFoundMsg si) } ∧
      ∃ left right,
        excInfoToString "ImportError" (notFoundMsg si) =
          left ++ ("Function \"" ++ si ++ "\" not found. " ++
            underlyingImportError si) ++ right) ∧
    (∀ t ∈ tests, t.uses.all (fun u => (nsSub.lookup u).isSome) = true →
      runTestEvent (examEnv nsSub declared) t =
        runTestEvent (examEnv nsFull declared) t) := by
  have hcontains : ∀ u : String, (nsSub.lookup u).isSome = true →
      declared.contains u = true := by
    intro u hus
    have hmem : u ∈ nsSub.map Prod.fst := lookup_isSome_mem u nsSub hus
    have := List.all_eq_true.mp hSub _ hmem
    simpa using this
  refine ⟨?_, ?_, ?_, ?_⟩
  · rw [run_success_shape]
  · intro s hs
    cases hl : nsSub.lookup s with
    | some f => exact ⟨_, examEnv_real nsSub declared s f hs hl⟩
    | none => exact ⟨_, examEnv_stub nsSub declared s hs hl⟩
  · intro t ht us1 si us2 hsplit h1 hmiss hdecl
    have hstub : examEnv nsSub declared si = some (Binding.stub (notFoundMsg si)) :=
      examEnv_stub nsSub declared si hdecl hmiss
    have hreal : ∀ u ∈ us1, ∃ f : α,
        examEnv nsSub declared u = some (Binding.real f) := by
      intro u hu
      have hus : (nsSub.lookup u).isSome = true := by
        have := List.all_eq_true.mp h1 u hu
        simpa using this
      obtain ⟨f, hf⟩ := Option.isSome_iff_exists.mp hus
      exact ⟨f, examEnv_real nsSub declared u f (hcontains u hus) hf⟩
    have htrace : firstStubTrace (examEnv nsSub declared) t.uses =
        some (excInfoToString "ImportError" (notFoundMsg si)) := by
      rw [hsplit]
      exact firstStubTrace_split _ si (notFoundMsg si) us1 us2 hreal hstub
    constructor
    · unfold runTestEvent
      rw [htrace]
      rfl
    · refine ⟨"Traceback (most recent call last):\n" ++ "ImportError" ++ ": ",
        "\n", ?_⟩
      simp only [excInfoToString, notFoundMsg, String.append_assoc]
  · intro t ht hall
    refine runTestEvent_congr _ _ t ?_
    intro u hu
    have hus : (nsSub.lookup u).isSome = true := by
      have := List.all_eq_true.mp hall u hu
      simpa using this
    obtain ⟨f, hf⟩ := Option.isSome_iff_exists.mp hus
    have hful : nsFull.lookup u = some f :=
      hAgree (u, f) (lookup_mem u f nsSub hf)
    rw [examEnv_real nsSub declared u f (hcontains u hus) hf,
      examEnv_real nsFull declared u f (hcontains u hus) hful]

/-- Witness for C2: with load_matrix present and count_letters missing, the
runner reaches the success envelope, the test invoking count_letters errors
with the fixed message, and the test invoking load_matrix behaves as with
the complete namespace. -/
theorem c2_witness :
    (run_tests_for_student (Except.ok c2NsSub) ""
        (Except.ok ⟨c2Declared, c2Tests⟩) "" "A" []).1 =
      SubmissionResult.success
        { results := runSuite (examEnv c2NsSub c2Declared) c2Tests,
          exam := "", testCode := "", assignment := "A" } ∧
    recordOf (runTestEvent (examEnv c2NsSub c2Declared) c2TestMissing) =
      { test := "test_count_letters", description := "Test 4", result := "ERROR",
        reason := excInfoToString "ImportError" (notFoundMsg "count_letters") } ∧
    runTestEvent (examEnv c2NsSub c2Declared) c2TestPresent =
      runTestEvent (examEnv c2NsFull c2Declared) c2TestPresent := by
  have h := c2_partial_submission c2Declared c2Tests c2NsSub c2NsFull "" "" "A" []
    (by decide) (by decide) (by decide) (by decide)
  refine ⟨h.1, ?_, ?_⟩
  · have h3 := h.2.2.1 c2TestMissing (by simp [c2Tests]) [] "count_letters" []
      rfl (by decide) (by decide) (by decide)
    exact h3.1
  · exact h.2.2.2 c2TestPresent (by simp [c2Tests]) (by decide)

/-- Witness for C9: submission A defines count_letters, submission B does
not; during the run of B the symbol resolves to the raising fallback. -/
theorem c9_witness :
    (run_tests_for_student (Except.ok ([] : Ns Nat)) "" (Except.ok ⟨["count_letters"], []⟩)
        "" "A"
        (run_tests_for_student (Except.ok [("count_letters", 5)]) ""
          (Except.ok ⟨["count_letters"], []⟩) "" "A" []).2.1).1 =
      SubmissionResult.success
        { results := runSuite (examEnv ([] : Ns Nat) ["count_letters"]) [],
          exam := "", testCode := "", assignment := "A" } ∧
    examEnv ([] : Ns Nat) ["count_letters"] "count_letters" =
      some (Binding.stub (notFoundMsg "count_letters")) := by
  have h := c9_isolation [("count_letters", 5)] ([] : Ns Nat) ["count_letters"]
    [] "" "" "" "A" [] "count_letters" 5 (by decide) (by decide) (by decide)
  exact ⟨h.1, h.2.2.1⟩

/-- Claim C1, amended: over any listing whose eligible filenames have
pairwise distinct stems, which holds for every ordinary name of the form
name.py, each eligible file contributes exactly one batch key, its stem, in
listing order, and the stored value is always an envelope: the success
envelope of its run, or, when the run failed, an envelope wrapping the
singleton synthetic failure record with empty source fields. Without the
distinct-stems proviso a later eligible file with the same stem overwrites
the earlier one. -/
theorem c1_amended {α : Type} (w : BatchWorld α) (a : String) (listing : List String)
    (sm : SysModules α)
    (hnd : ((listing.filter (fun f => pyEndsWith f ".py")).map pySplitextStem).Nodup) :
    ∃ batch, (main_runner true listing w a sm).1 = some batch ∧
      batch.map Prod.fst =
        (listing.filter (fun f => pyEndsWith f ".py")).map pySplitextStem ∧
      (main_runner true listing w a sm).2.2 =
        (listing.filter (fun f => pyEndsWith f ".py")).map pySplitextStem ∧
      ∀ f ∈ listing.filter (fun f => pyEndsWith f ".py"),
        batch.lookup (pySplitextStem f) = some (studentValue w a f) ∧
        ((∃ e0, (run_tests_for_student (w.loadOf f) (w.srcOf f) w.parsedSuite
            w.testSrc a []).1 = SubmissionResult.success e0 ∧
            studentValue w a f = e0) ∨
         (∃ r, (run_tests_for_student (w.loadOf f) (w.srcOf f) w.parsedSuite
            w.testSrc a []).1 = SubmissionResult.failure [r] ∧
           studentValue w a f =
             { results := [r], exam := "", testCode := "", assignment := a } ∧
           r.result = "failed" ∧
           (r.test = "ModuleLoadError" ∨ r.test = "TestModuleLoadError"))) := by
  refine ⟨(listing.filter (fun f => pyEndsWith f ".py")).map
    (fun f => (pySplitextStem f, studentValue w a f)), ?_, ?_, ?_, ?_⟩
  · show some (runnerLoop w a (listing.filter (fun f => pyEndsWith f ".py"))
      [] sm []).1 = _
    rw [runnerLoop_batch]
    rw [foldl_dictInsert_fresh pySplitextStem (fun f => studentValue w a f)
      (listing.filter (fun f => pyEndsWith f ".py")) [] hnd
      (fun f _ => by simp)]
    simp
  · simp
  · show (runnerLoop w a (listing.filter (fun f => pyEndsWith f ".py"))
      [] sm []).2.2 = _
    rw [runnerLoop_processed]
    simp
  · intro f hf
    constructor
    · exact lookup_map_pair pySplitextStem (fun g => studentValue w a g)
        (listing.filter (fun g => pyEndsWith g ".py")) f hnd hf
    · rcases run_result_cases (w.loadOf f) (w.srcOf f) w.parsedSuite w.testSrc a []
        with ⟨e0, he⟩ | ⟨r, hr, hres, htest⟩
      · refine Or.inl ⟨e0, he, ?_⟩
        unfold studentValue
        rw [he]
        rfl
      · refine Or.inr ⟨r, hr, ?_, hres, htest⟩
        unfold studentValue
        rw [hr]
        rfl

/-- Witness for C1: on the listing alice.py, bob.py, notes.txt the batch maps
the stems alice and bob, and only these, to the stored envelopes. -/
theorem c1_witness :
    ∃ batch, (main_runner true ["alice.py", "bob.py", "notes.txt"] c1World "A"
        ([] : SysModules Nat)).1 = some batch ∧
      batch.lookup "alice" = some (studentValue c1World "A" "alice.py") ∧
      batch.lookup "bob" = some (studentValue c1World "A" "bob.py") ∧
      batch.map Prod.fst = ["alice", "bob"] := by
  obtain ⟨batch, h1, h2, h3, h4⟩ := c1_amended c1World "A"
    ["alice.py", "bob.py", "notes.txt"] [] (by decide)
  refine ⟨batch, h1, ?_, ?_, ?_⟩
  · exact (h4 "alice.py" (by decide)).1
  · exact (h4 "bob.py" (by decide)).1
  · exact h2

/-- Counterexample to claim C1 as stated: the listing .py, .py.py has two
discovered eligible files, but both derive the stem .py, so the batch holds a
single key and the earlier submission has been overwritten by the later one,
whose exception text .py.py is the stored reason. -/
theorem c1_counterexample :
    ([".py", ".py.py"].filter (fun f => pyEndsWith f ".py")).length = 2 ∧
    (main_runner true [".py", ".py.py"] cexWorld "A" ([] : SysModules Nat)).1 =
      some [(".py",
        { results := [moduleLoadErrorRecord ".py.py"], exam := "", testCode := "",
          assignment := "A" })] :=
  ⟨by decide, by decide⟩

end Checker
